import Mathlib

/-!
Verification of the bird-finder species resolution and scoring engine.

This file gives a shallow embedding of the scoring core of the repository
(`src/app.py` and `src/ebird_client.py`) and proves or refutes the frozen
claims about it.  Python floats are modelled by exact rationals (`ℚ`),
Python ints by `ℤ`/`ℕ`, Python dicts by insertion-ordered association
lists with last-write-wins insertion, and Python strings by Lean strings
with explicit models of `str.lower`, `str.strip` and the `in` operator.
-/

namespace BirdFinder

/-! ## Models of the Python string primitives -/

/-- Model of Python `str.lower` (the inputs of interest are ASCII names). -/
def strLower (s : String) : String := ⟨s.data.map Char.toLower⟩

/-- Drop whitespace from both ends of a character list. -/
def trimCharList (l : List Char) : List Char :=
  ((l.dropWhile Char.isWhitespace).reverse.dropWhile Char.isWhitespace).reverse

/-- Model of Python `str.strip` with no argument: remove leading and
trailing whitespace. -/
def strTrim (s : String) : String := ⟨trimCharList s.data⟩

/-- `isSubAt needle hay` : does `needle` occur as a prefix of `hay`? -/
def isSubAt : List Char → List Char → Bool
  | [], _ => true
  | _ :: _, [] => false
  | a :: as, b :: bs => a = b && isSubAt as bs

/-- Does `needle` occur contiguously somewhere inside the list? -/
def occursIn (needle : List Char) : List Char → Bool
  | [] => needle.isEmpty
  | c :: cs => isSubAt needle (c :: cs) || occursIn needle cs

/-- Model of the Python expression `a in b` for strings: `a` occurs as a
contiguous substring of `b`. -/
def substrB (a b : String) : Bool := occursIn a.data b.data

/-! ## Model of Python `dict`

A Python `dict` is modelled as an insertion-ordered association list.
`dictInsert` is `d[k] = v`: it overwrites the value at an existing key in
place, otherwise appends the new binding at the end.  `dictGet?` is
`d.get(k)`. -/

def dictInsert {α : Type} (k : String) (v : α) : List (String × α) → List (String × α)
  | [] => [(k, v)]
  | (k₀, v₀) :: rest => if k₀ = k then (k, v) :: rest else (k₀, v₀) :: dictInsert k v rest

def dictGet? {α : Type} : List (String × α) → String → Option α
  | [], _ => none
  | (k₀, v₀) :: rest, k => if k₀ = k then some v₀ else dictGet? rest k

/-- The list of keys of a modelled dict, in order. -/
def dictKeys {α : Type} : List (String × α) → List String
  | [] => []
  | (k₀, _) :: rest => k₀ :: dictKeys rest

/-! ## `src/app.py` : the score combiner -/

/-- A bird suggestion dictionary produced by the language model
(the `common_name` / `scientific_name` fields used by the core). -/
structure BirdSuggestion where
  common_name : String
  scientific_name : String := ""
deriving DecidableEq

/-- The per-bird value stored in the result of `calculate_combined_scores`. -/
structure ScoreData where
  combined_score : ℚ
  llm_rank : ℤ
  llm_score : ℚ
  ebird_probability : ℚ
  ebird_score : ℚ
deriving DecidableEq

/-- The per-candidate computation of the loop body of
`calculate_combined_scores` (src/app.py lines 44-67): rank defaults to 5
when the name is absent from `llm_ranks`, probability defaults to 0.0 when
absent from `ebird_probabilities`. -/
def scoreEntry (ebird_probabilities : List (String × ℚ)) (llm_ranks : List (String × ℤ))
    (llm_weight ebird_weight : ℚ) (common_name : String) : ScoreData :=
  let llm_rank : ℤ := (dictGet? llm_ranks common_name).getD 5
  let llm_score : ℚ := ((6 - llm_rank : ℤ) : ℚ) / 5
  let ebird_prob : ℚ := (dictGet? ebird_probabilities common_name).getD 0
  let ebird_score : ℚ := ebird_prob / 100
  let combined_score : ℚ := llm_score * llm_weight + ebird_score * ebird_weight
  { combined_score := combined_score * 100
    llm_rank := llm_rank
    llm_score := llm_score * 100
    ebird_probability := ebird_prob
    ebird_score := ebird_score * 100 }

/-- The loop body of `calculate_combined_scores`: skip a candidate with a
falsy (empty) `common_name`, otherwise write its score data into the dict
keyed by `common_name`. -/
def combineStep (ebird_probabilities : List (String × ℚ)) (llm_ranks : List (String × ℤ))
    (llm_weight ebird_weight : ℚ) (combined_scores : List (String × ScoreData))
    (bird_dict : BirdSuggestion) : List (String × ScoreData) :=
  if bird_dict.common_name = "" then combined_scores
  else dictInsert bird_dict.common_name
    (scoreEntry ebird_probabilities llm_ranks llm_weight ebird_weight bird_dict.common_name)
    combined_scores

/-- `calculate_combined_scores` (src/app.py lines 17-69). -/
def calculate_combined_scores (bird_suggestions : List BirdSuggestion)
    (ebird_probabilities : List (String × ℚ)) (llm_ranks : List (String × ℤ))
    (llm_weight ebird_weight : ℚ) : List (String × ScoreData) :=
  bird_suggestions.foldl (combineStep ebird_probabilities llm_ranks llm_weight ebird_weight) []

/-- The loop body of the `llm_ranks` construction in `main`. -/
def rankStep (llm_ranks : List (String × ℤ)) (p : ℕ × BirdSuggestion) : List (String × ℤ) :=
  if p.2.common_name ≠ "" then dictInsert p.2.common_name (p.1 : ℤ) llm_ranks
  else llm_ranks

/-- The `llm_ranks` construction from `main` (src/app.py lines 366-370):
1-based position in the suggestion list, keyed by `common_name`, skipping
falsy names; a later duplicate overwrites an earlier one. -/
def build_llm_ranks (bird_suggestions : List BirdSuggestion) : List (String × ℤ) :=
  (bird_suggestions.enumFrom 1).foldl rankStep []

/-! ## `src/ebird_client.py` : taxonomy, name resolution, observations -/

/-- A raw taxonomy record: a dict (string keys and values) as returned by
the eBird taxonomy endpoint after CSV/JSON parsing. -/
abbrev Species : Type := List (String × String)

/-- The field-alias lookup shared by the three accessors inside
`get_species_code`: return the first alias that is present with a truthy
(non-empty) value, else the empty string. -/
def getField (species : Species) : List String → String
  | [] => ""
  | f :: rest =>
    match dictGet? species f with
    | some v => if v ≠ "" then v else getField species rest
    | none => getField species rest

def get_com_name (species : Species) : String :=
  getField species ["comName", "COMMON_NAME", "common_name", "Common Name", "commonName"]

def get_sci_name (species : Species) : String :=
  getField species ["sciName", "SCIENTIFIC_NAME", "scientific_name", "Scientific Name", "sciName"]

def get_species_code_field (species : Species) : String :=
  getField species ["speciesCode", "SPECIES_CODE", "species_code", "Species Code", "speciesCode"]

/-- Strategy 1 of `get_species_code`: first taxonomy entry whose lowered
common name equals the (lowered, stripped) input and that has a non-empty
species code.  An entry that matches but has an empty code is skipped and
the scan continues, exactly as in the source loop. -/
def strategy1 (bird_name_lower : String) : List Species → Option String
  | [] => none
  | species :: rest =>
    if strLower (get_com_name species) = bird_name_lower ∧ get_species_code_field species ≠ "" then
      some (get_species_code_field species)
    else strategy1 bird_name_lower rest

/-- Strategy 2: exact match on the lowered scientific name. -/
def strategy2 (scientific_name_lower : String) : List Species → Option String
  | [] => none
  | species :: rest =>
    if strLower (get_sci_name species) = scientific_name_lower
        ∧ get_species_code_field species ≠ "" then
      some (get_species_code_field species)
    else strategy2 scientific_name_lower rest

/-- The `matches` list of strategy 3: every entry (in taxonomy order) whose
lowered common name contains the input or is contained in it, paired as
`(length, code, name)` as in the source, keeping only entries with a
non-empty code. -/
def substringMatches (bird_name_lower : String) : List Species → List (ℕ × String × String)
  | [] => []
  | species :: rest =>
    let com_name := strLower (get_com_name species)
    if (substrB bird_name_lower com_name || substrB com_name bird_name_lower)
        ∧ get_species_code_field species ≠ "" then
      (com_name.length, get_species_code_field species, com_name)
        :: substringMatches bird_name_lower rest
    else substringMatches bird_name_lower rest

/-- One left-to-right pass keeping the current best match, replacing it
only on a strictly greater length.  The source sorts the match list with a
stable sort by descending length and takes the head; that head is exactly
the first element attaining the maximal length, which is what this pass
computes. -/
def pickFirstMax (m : ℕ × String × String) : List (ℕ × String × String) → ℕ × String × String
  | [] => m
  | x :: rest => pickFirstMax (if x.1 > m.1 then x else m) rest

/-- Strategy 3: substring match, most specific (longest) name wins, ties
broken by taxonomy order. -/
def strategy3 (bird_name_lower : String) (taxonomy : List Species) : Option String :=
  match substringMatches bird_name_lower taxonomy with
  | [] => none
  | m :: rest => some (pickFirstMax m rest).2.1

/-- Strategy 4: substring match on scientific names, first match wins. -/
def strategy4 (scientific_name_lower : String) : List Species → Option String
  | [] => none
  | species :: rest =>
    let sci_name := strLower (get_sci_name species)
    if (substrB scientific_name_lower sci_name || substrB sci_name scientific_name_lower)
        ∧ get_species_code_field species ≠ "" then
      some (get_species_code_field species)
    else strategy4 scientific_name_lower rest

/-- `get_species_code` (src/ebird_client.py lines 108-190).  The loaded
taxonomy is passed explicitly; a failed load (`None`) and an empty list
are both rejected by the source's `if not taxonomy` and are modelled by
the empty list.  Note that only the two INPUT names are stripped
(`.lower().strip()`); taxonomy-entry names are lowered but never
stripped. -/
def get_species_code (bird_name : String) (scientific_name : String)
    (taxonomy : List Species) : Option String :=
  if bird_name = "" ∨ strTrim bird_name = "" then none
  else if taxonomy = [] then none
  else
    let bird_name_lower := strTrim (strLower bird_name)
    let scientific_name_lower :=
      if scientific_name = "" then "" else strTrim (strLower scientific_name)
    match strategy1 bird_name_lower taxonomy with
    | some code => some code
    | none =>
      match (if scientific_name_lower ≠ "" then strategy2 scientific_name_lower taxonomy
             else none) with
      | some code => some code
      | none =>
        match strategy3 bird_name_lower taxonomy with
        | some code => some code
        | none =>
          if scientific_name_lower ≠ "" then strategy4 scientific_name_lower taxonomy
          else none

/-! ### Spec-side resolver variant for the normalization claim -/

/-- Modelled from the spec: exact common-name match where BOTH sides are
trimmed and lowered ("All comparisons trim whitespace and lower-case
before comparing"). -/
def strategy1TrimBoth (bird_name_lower : String) : List Species → Option String
  | [] => none
  | species :: rest =>
    if strTrim (strLower (get_com_name species)) = bird_name_lower
        ∧ get_species_code_field species ≠ "" then
      some (get_species_code_field species)
    else strategy1TrimBoth bird_name_lower rest

/-- Modelled from the spec: strategy 2 with both sides trimmed. -/
def strategy2TrimBoth (scientific_name_lower : String) : List Species → Option String
  | [] => none
  | species :: rest =>
    if strTrim (strLower (get_sci_name species)) = scientific_name_lower
        ∧ get_species_code_field species ≠ "" then
      some (get_species_code_field species)
    else strategy2TrimBoth scientific_name_lower rest

/-- Modelled from the spec: strategy-3 match collection with both sides
trimmed. -/
def substringMatchesTrimBoth (bird_name_lower : String) : List Species → List (ℕ × String × String)
  | [] => []
  | species :: rest =>
    let com_name := strTrim (strLower (get_com_name species))
    if (substrB bird_name_lower com_name || substrB com_name bird_name_lower)
        ∧ get_species_code_field species ≠ "" then
      (com_name.length, get_species_code_field species, com_name)
        :: substringMatchesTrimBoth bird_name_lower rest
    else substringMatchesTrimBoth bird_name_lower rest

/-- Modelled from the spec: strategy 4 with both sides trimmed. -/
def strategy4TrimBoth (scientific_name_lower : String) : List Species → Option String
  | [] => none
  | species :: rest =>
    let sci_name := strTrim (strLower (get_sci_name species))
    if (substrB scientific_name_lower sci_name || substrB sci_name scientific_name_lower)
        ∧ get_species_code_field species ≠ "" then
      some (get_species_code_field species)
    else strategy4TrimBoth scientific_name_lower rest

/-- Modelled from the spec: the resolver as the normalization claim reads,
with every comparison trimming and lower-casing both sides. -/
def get_species_code_trim_both (bird_name : String) (scientific_name : String)
    (taxonomy : List Species) : Option String :=
  if bird_name = "" ∨ strTrim bird_name = "" then none
  else if taxonomy = [] then none
  else
    let bird_name_lower := strTrim (strLower bird_name)
    let scientific_name_lower :=
      if scientific_name = "" then "" else strTrim (strLower scientific_name)
    match strategy1TrimBoth bird_name_lower taxonomy with
    | some code => some code
    | none =>
      match (if scientific_name_lower ≠ "" then strategy2TrimBoth scientific_name_lower taxonomy
             else none) with
      | some code => some code
      | none =>
        match substringMatchesTrimBoth bird_name_lower taxonomy with
        | [] =>
          if scientific_name_lower ≠ "" then strategy4TrimBoth scientific_name_lower taxonomy
          else none
        | m :: rest => some (pickFirstMax m rest).2.1

/-! ### Dates and the observation filter -/

/-- A calendar date as parsed by `datetime.strptime(s, "%Y-%m-%d")`. -/
structure Date where
  year : ℤ
  month : ℤ
  day : ℤ
deriving DecidableEq

/-- Day number of a civil date (proleptic Gregorian calendar), the standard
days-from-civil algorithm.  `daysFromCivil a - daysFromCivil b` models the
Python expression `(a - b).days` for the dates appearing in the filter:
the observation date is parsed at midnight and `today = datetime.now()`
carries a time-of-day in `[0, 24h)`, so the floored day difference equals
the civil-date difference exactly. -/
def daysFromCivil (dt : Date) : ℤ :=
  let y := if dt.month ≤ 2 then dt.year - 1 else dt.year
  let era := (if 0 ≤ y then y else y - 399) / 400
  let yoe := y - era * 400
  let mp := (dt.month + 9) % 12
  let doy := (153 * mp + 2) / 5 + dt.day - 1
  let doe := yoe * 365 + yoe / 4 - yoe / 100 + doy
  era * 146097 + doe - 719468

/-- An observation record; `obsDt` is the raw date string of the record:
`obs.get("obsDt", "")` yields `""` exactly when the field is missing or
falsy, so a missing field is the empty string here. -/
structure Obs where
  obsDt : String
deriving DecidableEq

/-- Groups of non-whitespace characters, for the model of Python
`str.split()` with no argument (split on whitespace runs, no empty
tokens). -/
def splitWsAux : List Char → List Char → List (List Char)
  | [], acc => if acc = [] then [] else [acc.reverse]
  | c :: cs, acc =>
    if c.isWhitespace then
      if acc = [] then splitWsAux cs []
      else acc.reverse :: splitWsAux cs []
    else splitWsAux cs (c :: acc)

/-- Model of Python `s.split()` (no argument): whitespace-separated
tokens, never containing an empty string; in particular the result is
`[]` iff `s` consists entirely of whitespace. -/
def pySplit (s : String) : List String := (splitWsAux s.data []).map (fun l => ⟨l⟩)

/-- Split a character list on `'-'`, keeping empty groups (the shape the
`%Y-%m-%d` format imposes on a date token). -/
def splitOnDash : List Char → List (List Char)
  | [] => [[]]
  | c :: cs =>
    let r := splitOnDash cs
    if c = '-' then [] :: r
    else
      match r with
      | [] => [[c]]
      | g :: gs => (c :: g) :: gs

/-- A non-empty all-digit character group read as a number. -/
def parseDigits? (l : List Char) : Option ℕ :=
  if l ≠ [] ∧ l.all Char.isDigit then
    some (l.foldl (fun acc c => acc * 10 + (c.toNat - 48)) 0)
  else none

def isLeapYear (y : ℤ) : Bool := (y % 4 = 0 && !(y % 100 = 0)) || y % 400 = 0

def daysInMonth (y m : ℤ) : ℤ :=
  if m = 2 then (if isLeapYear y then 29 else 28)
  else if m = 4 ∨ m = 6 ∨ m = 9 ∨ m = 11 then 30
  else 31

/-- Model of `datetime.strptime(tok, "%Y-%m-%d")`: exactly the shape
`\d\d\d\d-\d{1,2}-\d{1,2}` consuming the whole token (CPython compiles
`%Y` to four digits and `%m`/`%d` to one or two digits), with the ranges
the regex and the `datetime` constructor enforce: month 1..12, day valid
for the month and (leap) year, year at least 1.  `none` is a raised
`ValueError`, which the loop's inner `except ValueError` catches. -/
def strptimeYmd (tok : String) : Option Date :=
  match splitOnDash tok.data with
  | [ys, ms, ds] =>
    match parseDigits? ys, parseDigits? ms, parseDigits? ds with
    | some y, some m, some d =>
      if ys.length = 4 ∧ (ms.length = 1 ∨ ms.length = 2) ∧ (ds.length = 1 ∨ ds.length = 2)
          ∧ 1 ≤ y ∧ 1 ≤ m ∧ m ≤ 12 ∧ 1 ≤ d ∧ (d : ℤ) ≤ daysInMonth (y : ℤ) (m : ℤ) then
        some ⟨(y : ℤ), (m : ℤ), (d : ℤ)⟩
      else none
    | _, _, _ => none
  | _ => none

/-- One iteration of the date-filtering loop shared verbatim by
`get_observations_by_coords` (lines 248-269) and
`get_observations_by_region` (lines 341-358): a falsy date string is
skipped before the `try`; inside the `try`, `obs_date_str.split()[0]`
raises `IndexError` when the non-empty string is all whitespace
(`split()` returns `[]`), which the inner `except ValueError` does NOT
catch — modelled as `Except.error`; a `strptime` failure is caught and
the record skipped; a parsed record is kept inside the recent window
(inclusive) or in the same month of a prior year within `years_back`. -/
def filterStep (today : Date) (days_back years_back : ℤ) (filtered_obs : List Obs)
    (obs : Obs) : Except Unit (List Obs) :=
  let obs_date_str := obs.obsDt
  if obs_date_str = "" then Except.ok filtered_obs
  else
    match pySplit obs_date_str with
    | [] => Except.error ()
    | tok :: _ =>
      match strptimeYmd tok with
      | none => Except.ok filtered_obs
      | some obs_date =>
        let days_diff := daysFromCivil today - daysFromCivil obs_date
        if days_diff ≤ days_back then Except.ok (filtered_obs ++ [obs])
        else if years_back > 0 ∧ obs_date.month = today.month then
          if 1 ≤ today.year - obs_date.year ∧ today.year - obs_date.year ≤ years_back then
            Except.ok (filtered_obs ++ [obs])
          else Except.ok filtered_obs
        else Except.ok filtered_obs

/-- The filtering loop over a response; an escaped exception stops the
loop immediately (no record after it is processed and the accumulated
`filtered_obs` is discarded). -/
def filterLoop (today : Date) (days_back years_back : ℤ) :
    List Obs → List Obs → Except Unit (List Obs)
  | filtered_obs, [] => Except.ok filtered_obs
  | filtered_obs, obs :: rest =>
    match filterStep today days_back years_back filtered_obs obs with
    | Except.ok acc => filterLoop today days_back years_back acc rest
    | Except.error e => Except.error e

/-- The filtering phase as observed at the function boundary: a normal
run returns the kept records; an exception that escapes the loop reaches
the function-level `except Exception` handler (lines 290-292 and
379-381), which logs and returns `[]` for the WHOLE call. -/
def filter_observations (observations : List Obs) (today : Date)
    (days_back years_back : ℤ) : List Obs :=
  match filterLoop today days_back years_back [] observations with
  | Except.ok filtered_obs => filtered_obs
  | Except.error _ => []

/-- `get_observations_by_coords` (src/ebird_client.py lines 193-292).
`response` is the parsed JSON body of the HTTP request; `none` models
every error path (missing API key, timeout, HTTP error including 404,
request failure, unexpected exception), all of which return `[]`. -/
def get_observations_by_coords (species_code : String) (latitude longitude : ℚ)
    (days_back years_back : ℤ) (today : Date) (response : Option (List Obs)) : List Obs :=
  if species_code = "" then []
  else if ¬(-90 ≤ latitude ∧ latitude ≤ 90) ∨ ¬(-180 ≤ longitude ∧ longitude ≤ 180) then []
  else
    match response with
    | none => []
    | some observations => filter_observations observations today days_back years_back

/-- `get_observations_by_region` (src/ebird_client.py lines 295-381). -/
def get_observations_by_region (species_code region_code : String)
    (days_back years_back : ℤ) (today : Date) (response : Option (List Obs)) : List Obs :=
  if species_code = "" ∨ region_code = "" then []
  else
    match response with
    | none => []
    | some observations => filter_observations observations today days_back years_back

/-! ### `calculate_probabilities` -/

/-- The location dict once it is known to have a `"type"` key.  A missing
or falsy location dict (which the source rejects with `ValueError`) is
modelled by `none` at the call site. -/
structure Location where
  ty : String
  latitude : ℚ := 0
  longitude : ℚ := 0
  region_code : String := ""
deriving DecidableEq

/-- The probability normalization at the end of `calculate_probabilities`
(src/ebird_client.py lines 457-467): `(count / total) * 100` when the
total is positive, else `0.0` for every candidate. -/
def probabilities_of_counts (observation_counts : List (String × ℕ)) : List (String × ℚ) :=
  let total_observations : ℕ := (observation_counts.map (fun q => q.2)).sum
  observation_counts.map (fun q =>
    (q.1, if 0 < total_observations then ((q.2 : ℚ) / (total_observations : ℚ)) * 100 else 0))

/-- The per-candidate counting loop of `calculate_probabilities`
(lines 421-455): empty names, unresolved species codes and unknown
location types all record a zero count; otherwise the count is the number
of filtered observations for the resolved species code. -/
def countStep (loc : Location) (days_back years_back : ℤ) (today : Date)
    (fetchC : String → ℚ → ℚ → Option (List Obs))
    (fetchR : String → String → Option (List Obs)) (taxonomy : List Species)
    (observation_counts : List (String × ℕ)) (bird_dict : BirdSuggestion) :
    List (String × ℕ) :=
  let bird_name := bird_dict.common_name
  if bird_name = "" ∨ strTrim bird_name = "" then dictInsert bird_name 0 observation_counts
  else
    match get_species_code bird_name bird_dict.scientific_name taxonomy with
    | none => dictInsert bird_name 0 observation_counts
    | some species_code =>
      if loc.ty = "coords" then
        dictInsert bird_name
          (get_observations_by_coords species_code loc.latitude loc.longitude
            days_back years_back today (fetchC species_code loc.latitude loc.longitude)).length
          observation_counts
      else if loc.ty = "region" then
        dictInsert bird_name
          (get_observations_by_region species_code loc.region_code
            days_back years_back today (fetchR species_code loc.region_code)).length
          observation_counts
      else dictInsert bird_name 0 observation_counts

/-- `calculate_probabilities` (src/ebird_client.py lines 384-467).  The
two fetch oracles stand for the eBird HTTP requests; the `Except` result
models normal return vs the raised `ValueError`.  An empty suggestion
list returns an empty dict BEFORE the location check, exactly as in the
source. -/
def calculate_probabilities (bird_suggestions : List BirdSuggestion)
    (location : Option Location) (days_back years_back : ℤ) (today : Date)
    (fetchC : String → ℚ → ℚ → Option (List Obs))
    (fetchR : String → String → Option (List Obs)) (taxonomy : List Species) :
    Except String (List (String × ℚ)) :=
  if bird_suggestions = [] then .ok []
  else
    match location with
    | none => .error "Invalid location dictionary. Must have type key."
    | some loc =>
      .ok (probabilities_of_counts
        (bird_suggestions.foldl
          (countStep loc days_back years_back today fetchC fetchR taxonomy) []))

/-! ### The taxonomy cache (`_load_taxonomy`) -/

/-- The outcome of one attempted taxonomy fetch+parse.  `ok t` is a parse
into the record list `t`; `failed` covers every soft-failure path of
`_load_taxonomy` (missing API key, timeout, HTTP error, request error,
empty body, unparsable body, unexpected exception) — all of these print a
message and return `None`, none of them raises. -/
inductive FetchOutcome where
  | ok (taxonomy : List Species)
  | failed
deriving DecidableEq

/-- One call to `_load_taxonomy` (src/ebird_client.py lines 29-105) as a
state transition on the module-level `_taxonomy_cache`: a cached value is
returned immediately; otherwise the fetch outcome is cached only when it
is a non-empty parse (`if taxonomy and len(taxonomy) > 0`), and a failure
leaves the cache empty so that the next call fetches again. -/
def load_taxonomy_step (cache : Option (List Species)) (fetch : FetchOutcome) :
    Option (List Species) × Option (List Species) :=
  match cache with
  | some t => (some t, some t)
  | none =>
    match fetch with
    | .ok t => if t = [] then (none, none) else (some t, some t)
    | .failed => (none, none)

/-- A sequence of `_load_taxonomy` calls within one process, given the
outcome each in-flight fetch would have; returns the per-call results. -/
def load_taxonomy_run (cache : Option (List Species)) :
    List FetchOutcome → List (Option (List Species))
  | [] => []
  | f :: fs =>
    let r := load_taxonomy_step cache f
    r.1 :: load_taxonomy_run r.2 fs

/-! ### Helper lemmas about the combiner fold -/

theorem dictGet?_dictInsert_self {α : Type} (k : String) (v : α) (d : List (String × α)) :
    dictGet? (dictInsert k v d) k = some v := by
  induction d with
  | nil => simp [dictInsert, dictGet?]
  | cons p rest ih =>
    obtain ⟨k₀, v₀⟩ := p
    by_cases h : k₀ = k <;> simp [dictInsert, dictGet?, h, ih]

theorem dictGet?_dictInsert_ne {α : Type} (k k' : String) (v : α) (d : List (String × α))
    (h : k' ≠ k) : dictGet? (dictInsert k v d) k' = dictGet? d k' := by
  have hk : ¬k = k' := fun h₁ => h h₁.symm
  induction d with
  | nil => simp [dictInsert, dictGet?, hk]
  | cons p rest ih =>
    obtain ⟨k₀, v₀⟩ := p
    by_cases h₀ : k₀ = k
    · subst h₀
      simp [dictInsert, dictGet?, hk]
    · simp [dictInsert, dictGet?, h₀, ih]

theorem mem_dictInsert {α : Type} (q : String × α) (k : String) (v : α)
    (d : List (String × α)) (hq : q ∈ dictInsert k v d) : q = (k, v) ∨ q ∈ d := by
  induction d with
  | nil => simpa [dictInsert] using hq
  | cons p rest ih =>
    obtain ⟨k₀, v₀⟩ := p
    by_cases h : k₀ = k
    · subst h
      rcases (by simpa [dictInsert] using hq : q = (k₀, v) ∨ q ∈ rest) with h | h
      · exact Or.inl h
      · exact Or.inr (by simp [h])
    · rcases (by simpa [dictInsert, h] using hq : q = (k₀, v₀) ∨ q ∈ dictInsert k v rest)
          with h₁ | h₁
      · exact Or.inr (by simp [h₁])
      · rcases ih h₁ with h₂ | h₂
        · exact Or.inl h₂
        · exact Or.inr (by simp [h₂])

theorem mem_dictKeys_dictInsert {α : Type} (k x : String) (v : α) (d : List (String × α))
    (hx : x ∈ dictKeys (dictInsert k v d)) : x = k ∨ x ∈ dictKeys d := by
  induction d with
  | nil => simpa [dictInsert, dictKeys] using hx
  | cons p rest ih =>
    obtain ⟨k₀, v₀⟩ := p
    by_cases h : k₀ = k
    · subst h
      rcases (by simpa [dictInsert, dictKeys] using hx : x = k₀ ∨ x ∈ dictKeys rest) with h | h
      · exact Or.inl h
      · exact Or.inr (by simp [dictKeys, h])
    · rcases (by simpa [dictInsert, h, dictKeys] using hx :
          x = k₀ ∨ x ∈ dictKeys (dictInsert k v rest)) with h₁ | h₁
      · exact Or.inr (by simp [dictKeys, h₁])
      · rcases ih h₁ with h₂ | h₂
        · exact Or.inl h₂
        · exact Or.inr (by simp [dictKeys, h₂])

theorem nodup_dictKeys_dictInsert {α : Type} (k : String) (v : α) (d : List (String × α))
    (hd : (dictKeys d).Nodup) : (dictKeys (dictInsert k v d)).Nodup := by
  induction d with
  | nil => simp [dictInsert, dictKeys]
  | cons p rest ih =>
    obtain ⟨k₀, v₀⟩ := p
    simp only [dictKeys, List.nodup_cons] at hd
    by_cases h : k₀ = k
    · subst h
      simpa [dictInsert, dictKeys] using hd
    · simp only [dictInsert, h, if_false, dictKeys, List.nodup_cons]
      refine ⟨fun hmem => ?_, ih hd.2⟩
      rcases mem_dictKeys_dictInsert k k₀ v rest hmem with h₁ | h₁
      · exact h h₁
      · exact hd.1 h₁

theorem getLast?_cons_eq_or {α : Type} (a : α) (l : List α) :
    (a :: l).getLast? = l.getLast?.or (some a) := by
  cases l with
  | nil => rfl
  | cons b t =>
    rw [List.getLast?_cons_cons]
    cases h : (b :: t).getLast? with
    | none => simp at h
    | some y => simp [Option.or]

theorem dictGet?_combine_foldl_preserved (l : List BirdSuggestion)
    (P : List (String × ℚ)) (R : List (String × ℤ)) (wl we : ℚ) (n : String)
    (acc : List (String × ScoreData))
    (hacc : dictGet? acc n = some (scoreEntry P R wl we n)) :
    dictGet? (l.foldl (combineStep P R wl we) acc) n = some (scoreEntry P R wl we n) := by
  induction l generalizing acc with
  | nil => simpa using hacc
  | cons b rest ih =>
    rw [List.foldl_cons]
    refine ih _ ?_
    by_cases hb : b.common_name = ""
    · simpa [combineStep, hb] using hacc
    · by_cases hbn : b.common_name = n
      · have hn' : ¬n = "" := hbn ▸ hb
        simp [combineStep, hb, hbn, hn', dictGet?_dictInsert_self]
      · rw [combineStep, if_neg hb,
          dictGet?_dictInsert_ne _ _ _ _ (fun h => hbn h.symm)]
        exact hacc

theorem dictGet?_combine_foldl_of_mem (l : List BirdSuggestion)
    (P : List (String × ℚ)) (R : List (String × ℤ)) (wl we : ℚ) (n : String)
    (acc : List (String × ScoreData)) (hn : n ≠ "")
    (hmem : ∃ b ∈ l, b.common_name = n) :
    dictGet? (l.foldl (combineStep P R wl we) acc) n = some (scoreEntry P R wl we n) := by
  induction l generalizing acc with
  | nil => simp at hmem
  | cons b rest ih =>
    rw [List.foldl_cons]
    by_cases hbn : b.common_name = n
    · apply dictGet?_combine_foldl_preserved
      simp [combineStep, hbn, hn, dictGet?_dictInsert_self]
    · refine ih _ ?_
      rcases hmem with ⟨b₀, hb₀, hb₀n⟩
      rcases List.mem_cons.mp hb₀ with h | h
      · exact absurd (h ▸ hb₀n) hbn
      · exact ⟨b₀, h, hb₀n⟩

theorem nodup_dictKeys_combine_foldl (l : List BirdSuggestion)
    (P : List (String × ℚ)) (R : List (String × ℤ)) (wl we : ℚ)
    (acc : List (String × ScoreData)) (hacc : (dictKeys acc).Nodup) :
    (dictKeys (l.foldl (combineStep P R wl we) acc)).Nodup := by
  induction l generalizing acc with
  | nil => simpa using hacc
  | cons b rest ih =>
    rw [List.foldl_cons]
    refine ih _ ?_
    by_cases hb : b.common_name = ""
    · simpa [combineStep, hb] using hacc
    · simpa [combineStep, hb] using nodup_dictKeys_dictInsert _ _ _ hacc

theorem dictGet?_rank_foldl (es : List (ℕ × BirdSuggestion)) (n : String) (hn : n ≠ "") :
    ∀ acc : List (String × ℤ),
      dictGet? (es.foldl rankStep acc) n
        = (((es.filter (fun q => q.2.common_name = n)).map (fun q => (q.1 : ℤ))).getLast?).or
            (dictGet? acc n) := by
  induction es with
  | nil => intro acc; simp [Option.or]
  | cons p rest ih =>
    intro acc
    by_cases hpn : p.2.common_name = n
    · rw [List.foldl_cons, ih, List.filter_cons_of_pos (by simpa using hpn),
        List.map_cons, getLast?_cons_eq_or]
      rw [rankStep, if_pos (by simpa [hpn] using hn), hpn, dictGet?_dictInsert_self]
      cases ((rest.filter (fun q => q.2.common_name = n)).map (fun q => (q.1 : ℤ))).getLast? with
      | none => simp [Option.or]
      | some y => simp [Option.or]
    · rw [List.foldl_cons, ih, List.filter_cons_of_neg (by simpa using hpn)]
      by_cases hp0 : p.2.common_name = ""
      · rw [rankStep, if_neg (by simpa using hp0)]
      · rw [rankStep, if_pos (by simpa using hp0),
          dictGet?_dictInsert_ne _ _ _ _ (fun h => hpn h.symm)]

/-! ### Helper lemma about the strategy-3 best-match selection -/

theorem pickFirstMax_spec (rest : List (ℕ × String × String)) :
    ∀ m : ℕ × String × String,
      (pickFirstMax m rest = m ∧ ∀ x ∈ rest, x.1 ≤ m.1)
      ∨ (∃ l₁ l₂, rest = l₁ ++ pickFirstMax m rest :: l₂
          ∧ m.1 < (pickFirstMax m rest).1
          ∧ (∀ x ∈ l₁, x.1 < (pickFirstMax m rest).1)
          ∧ (∀ x ∈ l₂, x.1 ≤ (pickFirstMax m rest).1)) := by
  induction rest with
  | nil => intro m; exact Or.inl ⟨rfl, by simp⟩
  | cons x rest ih =>
    intro m
    by_cases hx : x.1 > m.1
    · have hred : pickFirstMax m (x :: rest) = pickFirstMax x rest := by
        simp [pickFirstMax, hx]
      rw [hred]
      rcases ih x with ⟨heq, hall⟩ | ⟨l₁, l₂, hsplit, hlt, hl₁, hl₂⟩
      · refine Or.inr ⟨[], rest, ?_, ?_, by simp, ?_⟩
        · simp [heq]
        · rw [heq]; exact hx
        · intro y hy; rw [heq]; exact hall y hy
      · refine Or.inr ⟨x :: l₁, l₂, ?_, lt_trans hx hlt, ?_, hl₂⟩
        · rw [List.cons_append, ← hsplit]
        · intro y hy
          rcases List.mem_cons.mp hy with h | h
          · subst h; exact hlt
          · exact hl₁ y h
    · have hred : pickFirstMax m (x :: rest) = pickFirstMax m rest := by
        simp [pickFirstMax, hx]
      rw [hred]
      rcases ih m with ⟨heq, hall⟩ | ⟨l₁, l₂, hsplit, hlt, hl₁, hl₂⟩
      · refine Or.inl ⟨heq, ?_⟩
        intro y hy
        rcases List.mem_cons.mp hy with h | h
        · subst h; exact le_of_not_lt hx
        · exact hall y h
      · refine Or.inr ⟨x :: l₁, l₂, ?_, hlt, ?_, hl₂⟩
        · rw [List.cons_append, ← hsplit]
        · intro y hy
          rcases List.mem_cons.mp hy with h | h
          · subst h; exact lt_of_le_of_lt (le_of_not_lt hx) hlt
          · exact hl₁ y h

/-! ### Helper lemmas about the probability normalization -/

theorem sum_map_div_mul (l : List (String × ℕ)) (T : ℚ) :
    (l.map (fun q => (q.2 : ℚ) / T * 100)).sum = (((l.map (fun q => q.2)).sum : ℕ) : ℚ) / T * 100 := by
  induction l with
  | nil => simp
  | cons p rest ih =>
    simp only [List.map_cons, List.sum_cons, ih]
    push_cast
    ring

theorem probabilities_all_zero_of_total_zero (observation_counts : List (String × ℕ))
    (h : (observation_counts.map (fun q => q.2)).sum = 0) :
    ∀ pr ∈ probabilities_of_counts observation_counts, pr.2 = 0 := by
  intro pr hpr
  simp only [probabilities_of_counts, h, List.mem_map] at hpr
  obtain ⟨q, _, hq⟩ := hpr
  simp [← hq]

/-! ### Helper lemmas about the counting loop and the taxonomy cache -/

theorem countStep_unknown_type_zero (loc : Location) (db yb : ℤ) (today : Date)
    (fetchC : String → ℚ → ℚ → Option (List Obs)) (fetchR : String → String → Option (List Obs))
    (taxonomy : List Species) (hc : loc.ty ≠ "coords") (hr : loc.ty ≠ "region")
    (acc : List (String × ℕ)) (b : BirdSuggestion)
    (hacc : ∀ q ∈ acc, q.2 = 0) :
    ∀ q ∈ countStep loc db yb today fetchC fetchR taxonomy acc b, q.2 = 0 := by
  intro q hq
  have hz : ∀ k, q ∈ dictInsert k 0 acc → q.2 = 0 := by
    intro k hk
    rcases mem_dictInsert q k 0 acc hk with h | h
    · simp [h]
    · exact hacc q h
  by_cases hb : b.common_name = "" ∨ strTrim b.common_name = ""
  · exact hz _ (by simpa [countStep, hb] using hq)
  · rcases hcode : get_species_code b.common_name b.scientific_name taxonomy with _ | code
    · exact hz _ (by simpa [countStep, hb, hcode] using hq)
    · exact hz _ (by simpa [countStep, hb, hcode, hc, hr] using hq)

theorem counts_all_zero_of_unknown_type (loc : Location) (db yb : ℤ) (today : Date)
    (fetchC : String → ℚ → ℚ → Option (List Obs)) (fetchR : String → String → Option (List Obs))
    (taxonomy : List Species) (hc : loc.ty ≠ "coords") (hr : loc.ty ≠ "region")
    (l : List BirdSuggestion) :
    ∀ acc, (∀ q ∈ acc, q.2 = 0) →
      ∀ q ∈ l.foldl (countStep loc db yb today fetchC fetchR taxonomy) acc, q.2 = 0 := by
  induction l with
  | nil => intro acc hacc q hq; exact hacc q (by simpa using hq)
  | cons b rest ih =>
    intro acc hacc q hq
    rw [List.foldl_cons] at hq
    exact ih _ (countStep_unknown_type_zero loc db yb today fetchC fetchR taxonomy hc hr acc b hacc) q hq

theorem sum_zero_of_all_zero (l : List (String × ℕ)) (h : ∀ q ∈ l, q.2 = 0) :
    (l.map (fun q => q.2)).sum = 0 := by
  induction l with
  | nil => simp
  | cons p rest ih =>
    simp only [List.map_cons, List.sum_cons]
    rw [h p (by simp), ih (fun q hq => h q (by simp [hq]))]

theorem load_taxonomy_run_cached (t : List Species) (fs : List FetchOutcome) :
    load_taxonomy_run (some t) fs = fs.map (fun _ => some t) := by
  induction fs with
  | nil => simp [load_taxonomy_run]
  | cons f rest ih => simp [load_taxonomy_run, load_taxonomy_step, ih]

/-! ## Claim theorems -/

/-- Claim C1: for every candidate with rank `r` in 1..5 and weights
`w_llm + w_ebird = 1`, the combiner computes `llm_score = (6-r)/5` (1.0
for rank 1, 0.2 for rank 5, monotonically decreasing in rank),
`ebird_score = probability/100`, and
`combined_score = (llm_score*w_llm + ebird_score*w_ebird)*100 ∈ [0,100]`
(score fields are stored in display units, ×100); for ranks 1,2,
probabilities 80,20 and weights 0.4/0.6 the combined scores are 88 and
44. -/
theorem combined_score_formula_and_bounds
    (P : List (String × ℚ)) (R : List (String × ℤ)) (name sci : String) (r : ℤ) (p wl : ℚ)
    (hr : dictGet? R name = some r) (hp : dictGet? P name = some p)
    (hr1 : 1 ≤ r) (hr5 : r ≤ 5) (hw0 : 0 ≤ wl) (hw1 : wl ≤ 1)
    (hp0 : 0 ≤ p) (hp1 : p ≤ 100) (hn : name ≠ "") :
    calculate_combined_scores [⟨name, sci⟩] P R wl (1 - wl)
        = [(name, scoreEntry P R wl (1 - wl) name)]
    ∧ (scoreEntry P R wl (1 - wl) name).llm_score = (6 - (r : ℚ)) / 5 * 100
    ∧ (scoreEntry P R wl (1 - wl) name).ebird_score = p / 100 * 100
    ∧ (scoreEntry P R wl (1 - wl) name).combined_score
        = ((6 - (r : ℚ)) / 5 * wl + p / 100 * (1 - wl)) * 100
    ∧ 0 ≤ (scoreEntry P R wl (1 - wl) name).combined_score
    ∧ (scoreEntry P R wl (1 - wl) name).combined_score ≤ 100
    ∧ (∀ r₂ : ℤ, r < r₂ →
        (scoreEntry P [(name, r₂)] wl (1 - wl) name).llm_score
          < (scoreEntry P R wl (1 - wl) name).llm_score)
    ∧ (dictGet? (calculate_combined_scores
          [⟨"Carolina Wren", "Thryothorus ludovicianus"⟩, ⟨"House Wren", "Troglodytes aedon"⟩]
          [("Carolina Wren", 80), ("House Wren", 20)]
          [("Carolina Wren", 1), ("House Wren", 2)] (2/5) (3/5)) "Carolina Wren").map
            ScoreData.combined_score = some 88
    ∧ (dictGet? (calculate_combined_scores
          [⟨"Carolina Wren", "Thryothorus ludovicianus"⟩, ⟨"House Wren", "Troglodytes aedon"⟩]
          [("Carolina Wren", 80), ("House Wren", 20)]
          [("Carolina Wren", 1), ("House Wren", 2)] (2/5) (3/5)) "House Wren").map
            ScoreData.combined_score = some 44 := by
  have hrQ1 : (1 : ℚ) ≤ (r : ℚ) := by exact_mod_cast hr1
  have hrQ5 : (r : ℚ) ≤ 5 := by exact_mod_cast hr5
  have h1 : (0 : ℚ) ≤ (6 - (r : ℚ)) / 5 := by linarith
  have h2 : (6 - (r : ℚ)) / 5 ≤ 1 := by linarith
  have h3 : (0 : ℚ) ≤ p / 100 := by linarith
  have h4 : p / 100 ≤ 1 := by linarith
  have h5 : (0 : ℚ) ≤ 1 - wl := by linarith
  have hcs : (scoreEntry P R wl (1 - wl) name).combined_score
      = ((6 - (r : ℚ)) / 5 * wl + p / 100 * (1 - wl)) * 100 := by
    simp only [scoreEntry, hr, hp, Option.getD_some]
    push_cast
    ring
  refine ⟨?_, ?_, ?_, hcs, ?_, ?_, ?_, ?_, ?_⟩
  · simp [calculate_combined_scores, combineStep, hn, dictInsert]
  · simp only [scoreEntry, hr, Option.getD_some]
    push_cast
    ring
  · simp [scoreEntry, hp]
  · rw [hcs]
    nlinarith [mul_nonneg h1 hw0, mul_nonneg h3 h5]
  · rw [hcs]
    nlinarith [mul_le_mul_of_nonneg_right h2 hw0, mul_le_mul_of_nonneg_right h4 h5]
  · intro r₂ hlt
    have hltQ : (r : ℚ) < (r₂ : ℚ) := by exact_mod_cast hlt
    simp only [scoreEntry, hr, dictGet?, if_true, Option.getD_some]
    push_cast
    linarith
  · have hne : ("Carolina Wren" : String) ≠ "House Wren" := by decide
    have hne' : ("House Wren" : String) ≠ "Carolina Wren" := by decide
    norm_num [calculate_combined_scores, combineStep, scoreEntry, dictInsert, dictGet?,
      hne, hne']
  · have hne : ("Carolina Wren" : String) ≠ "House Wren" := by decide
    have hne' : ("House Wren" : String) ≠ "Carolina Wren" := by decide
    norm_num [calculate_combined_scores, combineStep, scoreEntry, dictInsert, dictGet?,
      hne, hne']

theorem combined_score_formula_and_bounds_witness :
    (scoreEntry [("x", (80 : ℚ))] [("x", (1 : ℤ))] (2/5) (1 - 2/5) "x").combined_score
      = ((6 - ((1 : ℤ) : ℚ)) / 5 * (2/5) + (80 : ℚ) / 100 * (1 - 2/5)) * 100 :=
  (combined_score_formula_and_bounds [("x", 80)] [("x", 1)] "x" "" 1 80 (2/5)
    (by simp [dictGet?]) (by simp [dictGet?]) (by norm_num) (by norm_num) (by norm_num)
    (by norm_num) (by norm_num) (by norm_num) (by simp)).2.2.2.1

/-- Claim C8: duplicate candidate names are last-write-wins, both in the
rank mapping built in `main` (the surviving rank is the 1-based position
of the LAST occurrence) and in the final score mapping (whose surviving
entry is the one computed from that rank mapping); consequently each
non-empty common_name appears at most once as a key in the final score
mapping. -/
theorem duplicate_names_last_write_wins (l : List BirdSuggestion)
    (P : List (String × ℚ)) (wl we : ℚ) (n : String) (hn : n ≠ "") :
    dictGet? (build_llm_ranks l) n
      = (((l.enumFrom 1).filter (fun q => q.2.common_name = n)).map
          (fun q => (q.1 : ℤ))).getLast?
    ∧ (∀ b ∈ l, b.common_name = n →
        dictGet? (calculate_combined_scores l P (build_llm_ranks l) wl we) n
          = some (scoreEntry P (build_llm_ranks l) wl we n))
    ∧ (dictKeys (calculate_combined_scores l P (build_llm_ranks l) wl we)).Nodup := by
  refine ⟨?_, ?_, ?_⟩
  · rw [build_llm_ranks, dictGet?_rank_foldl (l.enumFrom 1) n hn []]
    cases (((l.enumFrom 1).filter (fun q => q.2.common_name = n)).map
        (fun q => (q.1 : ℤ))).getLast? with
    | none => simp [Option.or, dictGet?]
    | some y => simp [Option.or]
  · intro b hb hbn
    exact dictGet?_combine_foldl_of_mem l P (build_llm_ranks l) wl we n [] hn ⟨b, hb, hbn⟩
  · exact nodup_dictKeys_combine_foldl l P (build_llm_ranks l) wl we []
      (by simp [dictKeys])

theorem duplicate_names_last_write_wins_witness :
    dictGet? (build_llm_ranks [⟨"Wren", ""⟩, ⟨"Crow", ""⟩, ⟨"Wren", "x"⟩]) "Wren" = some 3 :=
  ((duplicate_names_last_write_wins [⟨"Wren", ""⟩, ⟨"Crow", ""⟩, ⟨"Wren", "x"⟩] [] 1 0 "Wren"
      (by decide)).1).trans (by decide)

/-- Claim C10: in `calculate_combined_scores` every candidate with a
truthy (non-empty) `common_name` produces a result entry; a name absent
from `llm_ranks` is silently assigned the worst rank 5 (llm_score 0.2,
i.e. 20 in display units) and a name absent from `ebird_probabilities` is
silently assigned probability 0.0, instead of being skipped or raising. -/
theorem missing_name_defaults (l : List BirdSuggestion) (P : List (String × ℚ))
    (R : List (String × ℤ)) (wl we : ℚ) (b : BirdSuggestion)
    (hb : b ∈ l) (hn : b.common_name ≠ "") :
    dictGet? (calculate_combined_scores l P R wl we) b.common_name
      = some (scoreEntry P R wl we b.common_name)
    ∧ (dictGet? R b.common_name = none →
        (scoreEntry P R wl we b.common_name).llm_rank = 5
          ∧ (scoreEntry P R wl we b.common_name).llm_score = 20)
    ∧ (dictGet? P b.common_name = none →
        (scoreEntry P R wl we b.common_name).ebird_probability = 0
          ∧ (scoreEntry P R wl we b.common_name).ebird_score = 0) := by
  refine ⟨?_, fun h => ⟨?_, ?_⟩, fun h => ⟨?_, ?_⟩⟩
  · exact dictGet?_combine_foldl_of_mem l P R wl we b.common_name [] hn ⟨b, hb, rfl⟩
  · simp [scoreEntry, h]
  · simp only [scoreEntry, h, Option.getD_none]
    norm_num
  · simp [scoreEntry, h]
  · simp [scoreEntry, h]

theorem missing_name_defaults_witness :
    dictGet? (calculate_combined_scores [⟨"Kestrel", ""⟩] [] [] (1/2) (1/2)) "Kestrel"
      = some (scoreEntry [] [] (1/2) (1/2) "Kestrel") :=
  (missing_name_defaults [⟨"Kestrel", ""⟩] [] [] (1/2) (1/2) ⟨"Kestrel", ""⟩
    (by simp) (by decide)).1

/-- Claim C2: with T the sum of all counts, every produced probability is
exactly 0 when T = 0; when T > 0 each candidate's probability is
`(count / T) * 100` and the probabilities sum to exactly 100 (so in
particular within the 1e-6 floating-point tolerance). -/
theorem probabilities_normalization (observation_counts : List (String × ℕ)) :
    ((observation_counts.map (fun q => q.2)).sum = 0 →
      ∀ pr ∈ probabilities_of_counts observation_counts, pr.2 = 0)
    ∧ (0 < (observation_counts.map (fun q => q.2)).sum →
        probabilities_of_counts observation_counts
          = observation_counts.map (fun q =>
              (q.1, (q.2 : ℚ) / (((observation_counts.map (fun q => q.2)).sum : ℕ) : ℚ) * 100))
        ∧ ((probabilities_of_counts observation_counts).map (fun q => q.2)).sum = 100) := by
  constructor
  · exact probabilities_all_zero_of_total_zero observation_counts
  · intro hT
    have hform : probabilities_of_counts observation_counts
        = observation_counts.map (fun q =>
            (q.1, (q.2 : ℚ) / (((observation_counts.map (fun q => q.2)).sum : ℕ) : ℚ) * 100)) := by
      simp [probabilities_of_counts, hT]
    refine ⟨hform, ?_⟩
    have hT' : ((((observation_counts.map (fun q => q.2)).sum : ℕ)) : ℚ) ≠ 0 :=
      Nat.cast_ne_zero.mpr hT.ne'
    rw [hform, List.map_map]
    have hcomp : ((fun pr : String × ℚ => pr.2) ∘ (fun q : String × ℕ =>
        ((q.1, (q.2 : ℚ) / (((observation_counts.map (fun q => q.2)).sum : ℕ) : ℚ) * 100)
          : String × ℚ)))
        = fun q : String × ℕ =>
            (q.2 : ℚ) / (((observation_counts.map (fun q => q.2)).sum : ℕ) : ℚ) * 100 := rfl
    rw [hcomp, sum_map_div_mul, div_self hT', one_mul]

theorem probabilities_normalization_witness :
    ((probabilities_of_counts [("Carolina Wren", 8), ("House Wren", 2)]).map
        (fun q => q.2)).sum = 100 :=
  ((probabilities_normalization [("Carolina Wren", 8), ("House Wren", 2)]).2 (by decide)).2

/-- Claim C3: the claim fails on the code for one class of unparsable
dates.  A record whose `obsDt` string is non-empty but all whitespace
(such as " ") makes `obs_date_str.split()[0]` raise `IndexError`
(`" ".split()` is `[]`), which the per-record `except ValueError` does
not catch; the exception reaches the function-level `except Exception`,
so the WHOLE call returns `[]` — the batch is aborted and the valid
records in it are lost, contradicting "dropped silently without aborting
the batch".  The other clauses trace the intended behaviour on the same
batch: a valid recent record alone is kept, and a missing date ("") or a
`ValueError`-unparsable date ("not-a-date") is dropped silently while the
rest of the batch is kept. -/
theorem observation_filter_whitespace_date_aborts_batch :
    filter_observations [⟨"2026-10-01"⟩, ⟨" "⟩] ⟨2026, 10, 12⟩ 30 5 = []
    ∧ filter_observations [⟨"2026-10-01"⟩] ⟨2026, 10, 12⟩ 30 5 = [⟨"2026-10-01"⟩]
    ∧ filter_observations [⟨"2026-10-01"⟩, ⟨""⟩, ⟨"not-a-date"⟩] ⟨2026, 10, 12⟩ 30 5
        = [⟨"2026-10-01"⟩] :=
  ⟨by decide, by decide, by decide⟩

/-- Claim C4: in the substring strategy, among all taxonomy entries whose
(lowered) common name contains the input or is contained by it, the
resolver returns the code of the entry with the longest common-name
string, and on ties the one encountered first in taxonomy order; input
"Carolina Wren" against a taxonomy containing only "Wren" resolves to
"Wren". -/
theorem substring_match_longest_first (taxonomy : List Species) (bird_name_lower : String) :
    (substringMatches bird_name_lower taxonomy = [] →
      strategy3 bird_name_lower taxonomy = none)
    ∧ (substringMatches bird_name_lower taxonomy ≠ [] →
        ∃ l₁ best l₂,
          substringMatches bird_name_lower taxonomy = l₁ ++ best :: l₂
          ∧ strategy3 bird_name_lower taxonomy = some best.2.1
          ∧ (∀ x ∈ substringMatches bird_name_lower taxonomy, x.1 ≤ best.1)
          ∧ (∀ x ∈ l₁, x.1 < best.1))
    ∧ get_species_code "Carolina Wren" ""
        [[("comName", "Wren"), ("speciesCode", "wren1")]] = some "wren1" := by
  refine ⟨?_, ?_, by decide⟩
  · intro h
    simp [strategy3, h]
  · intro h
    rcases hm : substringMatches bird_name_lower taxonomy with _ | ⟨m, rest⟩
    · exact absurd hm h
    · have hs3 : strategy3 bird_name_lower taxonomy = some (pickFirstMax m rest).2.1 := by
        simp [strategy3, hm]
      rcases pickFirstMax_spec rest m with ⟨heq, hall⟩ | ⟨l₁, l₂, hsplit, hlt, hl₁, hl₂⟩
      · refine ⟨[], m, rest, by simp, heq ▸ hs3, ?_, by simp⟩
        intro x hx
        rcases List.mem_cons.mp hx with hx | hx
        · subst hx; exact le_refl _
        · exact hall x hx
      · obtain ⟨b, hb⟩ : ∃ b, pickFirstMax m rest = b := ⟨_, rfl⟩
        rw [hb] at hsplit hlt hl₁ hl₂ hs3
        refine ⟨m :: l₁, b, l₂, ?_, hs3, ?_, ?_⟩
        · rw [hsplit, List.cons_append]
        · intro x hx
          rcases List.mem_cons.mp hx with hx | hx
          · subst hx; exact le_of_lt hlt
          · rw [hsplit] at hx
            rcases List.mem_append.mp hx with hx | hx
            · exact le_of_lt (hl₁ x hx)
            · rcases List.mem_cons.mp hx with hx | hx
              · subst hx; exact le_refl _
              · exact hl₂ x hx
        · intro x hx
          rcases List.mem_cons.mp hx with hx | hx
          · subst hx; exact hlt
          · exact hl₁ x hx

theorem substring_match_longest_first_witness :
    strategy3 "zzz" [] = none
    ∧ get_species_code "Carolina Wren" "" [[("comName", "Wren"), ("speciesCode", "wren1")]]
        = some "wren1" :=
  ⟨(substring_match_longest_first [] "zzz").1 rfl,
   (substring_match_longest_first [] "zzz").2.2⟩

/-- Claim C5: the resolver applies its strategies in order with first
success winning — exact common-name match, then (when a scientific name
is given) exact scientific-name match, then common-name substring match,
then scientific-name substring match — so an exact match always beats a
substring match; input "wren" against a taxonomy containing both "Wren"
and "Carolina Wren" resolves to "Wren", not "Carolina Wren". -/
theorem resolver_strategy_order (taxonomy : List Species) (bird_name scientific_name : String)
    (hbn : strTrim bird_name ≠ "") :
    (∀ code, strategy1 (strTrim (strLower bird_name)) taxonomy = some code →
        get_species_code bird_name scientific_name taxonomy = some code)
    ∧ (∀ code, strategy1 (strTrim (strLower bird_name)) taxonomy = none →
        (if (if scientific_name = "" then "" else strTrim (strLower scientific_name)) ≠ ""
          then strategy2 (if scientific_name = "" then ""
            else strTrim (strLower scientific_name)) taxonomy
          else none) = some code →
        get_species_code bird_name scientific_name taxonomy = some code)
    ∧ (∀ code, strategy1 (strTrim (strLower bird_name)) taxonomy = none →
        (if (if scientific_name = "" then "" else strTrim (strLower scientific_name)) ≠ ""
          then strategy2 (if scientific_name = "" then ""
            else strTrim (strLower scientific_name)) taxonomy
          else none) = none →
        strategy3 (strTrim (strLower bird_name)) taxonomy = some code →
        get_species_code bird_name scientific_name taxonomy = some code)
    ∧ (strategy1 (strTrim (strLower bird_name)) taxonomy = none →
        (if (if scientific_name = "" then "" else strTrim (strLower scientific_name)) ≠ ""
          then strategy2 (if scientific_name = "" then ""
            else strTrim (strLower scientific_name)) taxonomy
          else none) = none →
        strategy3 (strTrim (strLower bird_name)) taxonomy = none →
        get_species_code bird_name scientific_name taxonomy
          = (if (if scientific_name = "" then "" else strTrim (strLower scientific_name)) ≠ ""
              then strategy4 (if scientific_name = "" then ""
                else strTrim (strLower scientific_name)) taxonomy
              else none))
    ∧ get_species_code "wren" ""
        [[("comName", "Wren"), ("speciesCode", "wren1")],
         [("comName", "Carolina Wren"), ("speciesCode", "carwre")]] = some "wren1" := by
  have hguard : ¬(bird_name = "" ∨ strTrim bird_name = "") := by
    rintro (h | h)
    · subst h; exact hbn rfl
    · exact hbn h
  refine ⟨?_, ?_, ?_, ?_, by decide⟩
  · intro code h1
    have htax : taxonomy ≠ [] := by
      rintro rfl; simp [strategy1] at h1
    simp [get_species_code, hguard, htax, h1]
  · intro code h1 h2
    have htax : taxonomy ≠ [] := by
      rintro rfl
      by_cases hsn : (if scientific_name = "" then "" else strTrim (strLower scientific_name)) ≠ ""
      · simp [hsn, strategy2] at h2
      · simp [hsn] at h2
    by_cases hs0 : scientific_name = ""
    · simp [hs0] at h2
    · by_cases hs1 : strTrim (strLower scientific_name) = ""
      · simp [hs0, hs1] at h2
      · simp only [hs0, hs1, if_false, ne_eq, not_false_iff, if_true, if_neg] at h2
        simp [get_species_code, hguard, htax, hs0, hs1, h1, h2]
  · intro code h1 h2 h3
    have htax : taxonomy ≠ [] := by
      rintro rfl; simp [strategy3, substringMatches] at h3
    by_cases hs0 : scientific_name = ""
    · simp [get_species_code, hguard, htax, hs0, h1, h3]
    · by_cases hs1 : strTrim (strLower scientific_name) = ""
      · simp [get_species_code, hguard, htax, hs0, hs1, h1, h3]
      · simp only [hs0, hs1, if_false, ne_eq, not_false_iff, if_true, if_neg] at h2
        simp [get_species_code, hguard, htax, hs0, hs1, h1, h2, h3]
  · intro h1 h2 h3
    by_cases hs0 : scientific_name = ""
    · cases taxonomy with
      | nil => simp [get_species_code, hguard, hs0]
      | cons s rest => simp [get_species_code, hguard, hs0, h1, h3]
    · by_cases hs1 : strTrim (strLower scientific_name) = ""
      · cases taxonomy with
        | nil => simp [get_species_code, hguard, hs0, hs1]
        | cons s rest => simp [get_species_code, hguard, hs0, hs1, h1, h3]
      · simp only [hs0, hs1, if_false, ne_eq, not_false_iff, if_true, if_neg] at h2
        cases taxonomy with
        | nil => simp [get_species_code, hguard, hs0, hs1, strategy4]
        | cons s rest => simp [get_species_code, hguard, hs0, hs1, h1, h2, h3]

theorem resolver_strategy_order_witness :
    get_species_code "wren" ""
        [[("comName", "Wren"), ("speciesCode", "wren1")],
         [("comName", "Carolina Wren"), ("speciesCode", "carwre")]] = some "wren1" :=
  (resolver_strategy_order
      [[("comName", "Wren"), ("speciesCode", "wren1")],
       [("comName", "Carolina Wren"), ("speciesCode", "carwre")]] "wren" "" (by decide)).1
    "wren1" (by decide)

/-- Claim C9 counterexample: the code lower-cases but does NOT trim
taxonomy-entry names, contradicting "trims whitespace and lower-cases
both sides before any comparison".  With an entry whose common name is
" Wren" (leading space, code "wrenA") and a second entry "Carolina Wren"
(code "carwre"), input "wren" would match " Wren" exactly under
trim-both-sides semantics (returning "wrenA"), but the code finds no
exact match and falls through to the substring strategy, where the longer
"Carolina Wren" wins: it returns "carwre". -/
theorem resolver_normalization_counterexample :
    get_species_code "wren" ""
        [[("comName", " Wren"), ("speciesCode", "wrenA")],
         [("comName", "Carolina Wren"), ("speciesCode", "carwre")]] = some "carwre"
    ∧ get_species_code_trim_both "wren" ""
        [[("comName", " Wren"), ("speciesCode", "wrenA")],
         [("comName", "Carolina Wren"), ("speciesCode", "carwre")]] = some "wrenA"
    ∧ (some "carwre" : Option String) ≠ some "wrenA" :=
  ⟨by decide, by decide, by decide⟩

/-- Claim C9 (amended): the resolver lower-cases both sides but trims only
the input names — taxonomy-entry names are compared untrimmed — and an
empty or whitespace-only common_name always yields NOT_FOUND regardless
of the taxonomy (the taxonomy is never consulted: the result is `none`
for every taxonomy).  The two concrete clauses exhibit the normalization:
a padded mixed-case input exactly matches a clean entry, and an all-caps
entry name is compared lower-cased. -/
theorem resolver_normalization_amended (bird_name scientific_name : String)
    (taxonomy : List Species) (h : strTrim bird_name = "") :
    get_species_code bird_name scientific_name taxonomy = none
    ∧ get_species_code "  CaRoLiNa wren " ""
        [[("comName", "Carolina Wren"), ("speciesCode", "carwre")]] = some "carwre"
    ∧ get_species_code "carolina wren" ""
        [[("comName", "CAROLINA WREN"), ("speciesCode", "carwre2")]] = some "carwre2" := by
  refine ⟨?_, by decide, by decide⟩
  simp [get_species_code, h]

theorem resolver_normalization_amended_witness :
    get_species_code "   " "Troglodytes aedon"
        [[("comName", "Wren"), ("speciesCode", "wren1")]] = none :=
  (resolver_normalization_amended "   " "Troglodytes aedon"
      [[("comName", "Wren"), ("speciesCode", "wren1")]] (by decide)).1

/-- Claim C6 counterexample: `calculate_probabilities` does NOT raise for
an empty candidate list — it returns an empty dict (even when the
location is also invalid, since the empty-list check comes first) — and a
location whose type is neither "coords" nor "region" does not raise
either: it yields a normal zero-probability result. -/
theorem structural_error_counterexample :
    calculate_probabilities [] none 30 5 ⟨2026, 10, 12⟩
        (fun _ _ _ => none) (fun _ _ => none) [] = Except.ok []
    ∧ calculate_probabilities [⟨"Carolina Wren", "Thryothorus ludovicianus"⟩]
        (some ⟨"banana", 0, 0, ""⟩) 30 5 ⟨2026, 10, 12⟩
        (fun _ _ _ => none) (fun _ _ => none) []
      = Except.ok [("Carolina Wren", 0)] := by
  refine ⟨rfl, ?_⟩
  have h1 : ¬(("Carolina Wren" : String) = "" ∨ strTrim "Carolina Wren" = "") := by decide
  have h2 : get_species_code "Carolina Wren" "Thryothorus ludovicianus" [] = none := by decide
  norm_num [calculate_probabilities, countStep, h1, h2, probabilities_of_counts, dictInsert]

/-- Claim C6 (amended): `calculate_probabilities` raises `ValueError` only
when the candidate list is non-empty and the location dict is falsy or
lacks a "type" key; an empty candidate list returns an empty mapping
without raising (checked before the location), and a location whose type
is neither "coords" nor "region" does not raise but yields probability
0.0 for every candidate. -/
theorem structural_error_signals_amended (bird_suggestions : List BirdSuggestion)
    (days_back years_back : ℤ) (today : Date)
    (fetchC : String → ℚ → ℚ → Option (List Obs))
    (fetchR : String → String → Option (List Obs)) (taxonomy : List Species)
    (hne : bird_suggestions ≠ []) :
    calculate_probabilities bird_suggestions none days_back years_back today
        fetchC fetchR taxonomy
      = Except.error "Invalid location dictionary. Must have type key."
    ∧ (∀ location, calculate_probabilities [] location days_back years_back today
        fetchC fetchR taxonomy = Except.ok [])
    ∧ (∀ loc : Location, loc.ty ≠ "coords" → loc.ty ≠ "region" →
        ∃ m, calculate_probabilities bird_suggestions (some loc) days_back years_back today
              fetchC fetchR taxonomy = Except.ok m
          ∧ ∀ q ∈ m, q.2 = 0) := by
  refine ⟨?_, ?_, ?_⟩
  · simp [calculate_probabilities, hne]
  · intro location
    simp [calculate_probabilities]
  · intro loc hc hr
    refine ⟨probabilities_of_counts
        (bird_suggestions.foldl
          (countStep loc days_back years_back today fetchC fetchR taxonomy) []),
      by simp [calculate_probabilities, hne], ?_⟩
    intro q hq
    have hz := counts_all_zero_of_unknown_type loc days_back years_back today fetchC fetchR
      taxonomy hc hr bird_suggestions [] (by simp)
    exact probabilities_all_zero_of_total_zero _ (sum_zero_of_all_zero _ hz) q hq

theorem structural_error_signals_amended_witness :
    calculate_probabilities [⟨"Carolina Wren", ""⟩] none 30 5 ⟨2026, 10, 12⟩
        (fun _ _ _ => none) (fun _ _ => none) []
      = Except.error "Invalid location dictionary. Must have type key." :=
  (structural_error_signals_amended [⟨"Carolina Wren", ""⟩] 30 5 ⟨2026, 10, 12⟩
      (fun _ _ _ => none) (fun _ _ => none) [] (by decide)).1

/-- Claim C7 counterexample: the load is cached only on success, so after
a failed first load the next call performs the load AGAIN and can return
a different result — the load is not "performed at most once per
process", and a call after the first does not return what the first call
returned. -/
theorem taxonomy_cache_counterexample :
    load_taxonomy_run none
        [FetchOutcome.failed,
         FetchOutcome.ok [[("comName", "Wren"), ("speciesCode", "wren1")]]]
      = [none, some [[("comName", "Wren"), ("speciesCode", "wren1")]]]
    ∧ (none : Option (List Species))
        ≠ some [[("comName", "Wren"), ("speciesCode", "wren1")]] :=
  ⟨by decide, by decide⟩

/-- Claim C7 (amended): a SUCCESSFUL taxonomy load is performed at most
once per process — once the cache holds a taxonomy, every later call
returns it without consulting the fetch outcome; a failed or empty load
returns no taxonomy (softly, the model has no failure channel because
every exception path in the source is caught) and leaves the cache empty
so the next call retries; with no taxonomy the resolver returns
NOT_FOUND. -/
theorem taxonomy_cache_amended (t : List Species) (fs : List FetchOutcome) (ht : t ≠ []) :
    load_taxonomy_run (some t) fs = fs.map (fun _ => some t)
    ∧ load_taxonomy_run none (FetchOutcome.ok t :: fs) = some t :: fs.map (fun _ => some t)
    ∧ load_taxonomy_step none FetchOutcome.failed = (none, none)
    ∧ (∀ bird_name scientific_name : String,
        get_species_code bird_name scientific_name [] = none) := by
  refine ⟨load_taxonomy_run_cached t fs, ?_, rfl, ?_⟩
  · simp [load_taxonomy_run, load_taxonomy_step, ht, load_taxonomy_run_cached]
  · intro bn sn
    by_cases h : bn = "" ∨ strTrim bn = ""
    · simp [get_species_code, h]
    · simp [get_species_code, h]

theorem taxonomy_cache_amended_witness :
    load_taxonomy_run none
        [FetchOutcome.ok [[("comName", "Wren"), ("speciesCode", "wren1")]],
         FetchOutcome.failed]
      = [some [[("comName", "Wren"), ("speciesCode", "wren1")]],
         some [[("comName", "Wren"), ("speciesCode", "wren1")]]] :=
  (taxonomy_cache_amended [[("comName", "Wren"), ("speciesCode", "wren1")]]
      [FetchOutcome.failed] (by decide)).2.1

end BirdFinder
